import Mathlib

/-!
Shallow embedding of the Queue-Bot repository (TypeScript) for checking its
natural-language specification.

Source files embedded:
- `Base.shuffle` (Fisher-Yates loop over an array or a discord.js Collection);
- `ParsingUtils.checkPermission`, `Parsed.verifyArgs`, `Parsed.verifyNumber`,
  the channel-resolution block of `Parsed.parseArgs`;
- `QueueTable` (initTable, get, store, unstore) and `QueueGuildTable`
  (initTable, get, store, setMessageMode semantics).

Machine integers of the source (Discord snowflakes, counts) are modelled as
`Nat`; SQL `null` / JS `undefined` as `Option`; JS exceptions as `Except`.
Sub-tables whose files are not part of the given sources
(`QueueMemberTable`, `DisplayChannelTable`, `BlackWhiteListTable`,
`ScheduleTable`, the admission engine) are modelled from the specification
text, each marked `Modelled from the spec:` in its doc comment.
-/

/-! ## Base.shuffle: the Fisher-Yates loop

The source:
```
public static shuffle(array: Collection<Snowflake, Guild> | any[]): void {
  for (let i = (array.length || array.size) - 1; i > 0; i--) {
    const j = Math.floor(Math.random() * (i + 1));
    [array[i], array[j]] = [array[j], array[i]];
  }
}
```
The random draws are made explicit as a list of indices `cs`, consumed one
per loop iteration (step `i` uses the head of the remaining list; the code
draws `j = floor(random * (i + 1))`, always in `0..i`).
-/

/-- One destructuring swap `[a[i], a[j]] = [a[j], a[i]]` on a JS array:
both cells are read first, then both are written.  Reading an index outside
the array yields no element, in which case the statement writes the cells
back unchanged (the loop never does this: both indices are in range). -/
def swapIdx {α : Type} (l : List α) (i j : Nat) : List α :=
  match l[i]?, l[j]? with
  | some a, some b => (l.set i b).set j a
  | _, _ => l

/-- The loop of `Base.shuffle`, counting `i` down to `1`: step `i` swaps
index `i` with the next random index from `cs`. -/
def fisherYatesFrom {α : Type} : Nat → List Nat → List α → List α
  | 0, _, l => l
  | _ + 1, [], l => l
  | i + 1, c :: cs, l => fisherYatesFrom i cs (swapIdx l (i + 1) c)

/-- `Base.shuffle` on an array: the loop starts at `array.length - 1`. -/
def fisherYates {α : Type} (cs : List Nat) (l : List α) : List α :=
  fisherYatesFrom (l.length - 1) cs l

/-- A discord.js `Collection` as the JS object `Base.shuffle` receives it:
a `Map` (its entries, keyed by snowflake strings) together with the numeric
own properties that bracket assignment `array[i] = v` creates on the object.
Bracket access on a `Map` reads and writes own properties, never entries. -/
structure JSCollection (α : Type) where
  entries : List (String × α)
  numericProps : List (Nat × α)

/-- Property read `array[i]` on a Collection: an own property if one was
set, otherwise `undefined` (`none`). Map entries are not consulted. -/
def JSCollection.getProp {α : Type} (c : JSCollection α) (i : Nat) : Option α :=
  (c.numericProps.find? (fun p => p.1 == i)).map (fun p => p.2)

/-- Property write `array[i] = v` on a Collection: sets an own property
(writing `undefined` removes our record of it). Map entries are untouched. -/
def JSCollection.setProp {α : Type} (c : JSCollection α) (i : Nat) (v : Option α) :
    JSCollection α :=
  match v with
  | some a => ⟨c.entries, (i, a) :: c.numericProps.filter (fun p => !(p.1 == i))⟩
  | none => ⟨c.entries, c.numericProps.filter (fun p => !(p.1 == i))⟩

/-- The loop of `Base.shuffle` run on a Collection: `array.length` is
`undefined` so the bound is `array.size` (the entry count); each swap reads
and writes numeric own properties through bracket syntax. -/
def shuffleCollFrom {α : Type} : Nat → List Nat → JSCollection α → JSCollection α
  | 0, _, c => c
  | _ + 1, [], c => c
  | i + 1, j :: cs, c =>
      let vi := c.getProp (i + 1)
      let vj := c.getProp j
      shuffleCollFrom i cs ((c.setProp (i + 1) vj).setProp j vi)

/-- `Base.shuffle` on a Collection input. -/
def shuffleColl {α : Type} (cs : List Nat) (c : JSCollection α) : JSCollection α :=
  shuffleCollFrom (c.entries.length - 1) cs c

/-- All sequences of random draws the loop can make from step `i` down to
step `1`: step `k` draws `floor(random * (k + 1))`, uniform on `0..k`.
`choiceSeqs i` lists every such sequence once; the uniform distribution on
the draws is the uniform distribution on this list. -/
def choiceSeqs : Nat → List (List Nat)
  | 0 => [[]]
  | i + 1 => (List.range (i + 2)).flatMap (fun c => (choiceSeqs i).map (fun cs => c :: cs))

/-! ## The persisted data model

Row types for the two tables whose schema is in the sources
(`queue_channels`, `queue_guilds`), and for the dependent tables whose
files are not among the sources (modelled from the spec, section 3).
Snowflake identifiers are `Nat`; a nullable column is an `Option`. -/

/-- A row of `queue_channels` (schema from `QueueTable.initTable`;
`role_id` appears through `QueueTable.setRoleId` and `deleteQueueRole`). -/
structure StoredQueue where
  queue_channel_id : Nat
  auto_fill : Option Nat
  color : Option String
  enable_partial_pull : Option Bool
  grace_period : Option Nat
  guild_id : Nat
  header : Option String
  hide_button : Option Bool
  is_locked : Option Bool
  max_members : Option Nat
  pull_num : Option Nat
  target_channel_id : Option Nat
  mute : Option Bool
  role_id : Option Nat
deriving DecidableEq

/-- A row of `queue_guilds` (schema from `QueueGuildTable.initTable`). -/
structure StoredGuild where
  guild_id : Nat
  disable_mentions : Option Bool
  disable_notifications : Option Bool
  disable_roles : Option Bool
  logging_channel_id : Option Nat
  logging_channel_level : Option Nat
  msg_mode : Option Nat
  rolePrefix : Option String
  timestamps : Option String
deriving DecidableEq

/-- Modelled from the spec: the `QueueMemberTable` file is not among the
sources.  Section 3: a member entry is a (queue id, member id) pair, unique
per queue, with a join timestamp / monotone order key and a priority tier. -/
structure QueueMemberRow where
  channel_id : Nat
  member_id : Nat
  created_at : Nat
  is_priority : Bool
deriving DecidableEq

/-- Modelled from the spec: the `DisplayChannelTable` file is not among the
sources.  Section 3: a display binding associates a queue with a render
target (a message in a display channel). -/
structure DisplayRow where
  queue_channel_id : Nat
  display_channel_id : Nat
  message_id : Nat
deriving DecidableEq

/-- Modelled from the spec: the `BlackWhiteListTable` file is not among the
sources; a black/white-list entry binds a role or member to a queue, with a
list type (0 blacklist, 1 whitelist). -/
structure BWRow where
  queue_channel_id : Nat
  role_member_id : Nat
  list_type : Nat
deriving DecidableEq

/-- Modelled from the spec: the `ScheduleTable` file is not among the
sources; a schedule row is keyed by its queue channel. -/
structure ScheduleRow where
  queue_channel_id : Nat
  schedule_command : Nat
deriving DecidableEq

/-- A row of the admin permission table (`AdminPermissionTable`, used by
`ParsingUtils.checkPermission` through `getMany(guildId)`): a role or
member identifier granted bot permission in a guild. -/
structure AdminPermRow where
  guild_id : Nat
  role_member_id : Nat
deriving DecidableEq

/-- Modelled from the spec: a priority table row (`PriorityTable` is not
among the sources; `QueueGuildTable.unstore` clears it per guild). -/
structure PriorityRow where
  guild_id : Nat
  role_member_id : Nat
deriving DecidableEq

/-- Modelled from the spec: a voice-transfer session (section 4.4), not
among the sources.  An `ARMED` session binds a source queue to the
controller; section 5 allows the `ARMED` state to be durably remembered,
so sessions live in the store here. -/
structure VoiceSessionRow where
  source_queue_channel_id : Nat
deriving DecidableEq

/-- The relational store: one list of rows per table, plus the armed
voice-transfer sessions (spec sections 4.4 and 5). -/
structure Database where
  queue_guilds : List StoredGuild
  queue_channels : List StoredQueue
  queue_members : List QueueMemberRow
  display_channels : List DisplayRow
  black_white_list : List BWRow
  schedules : List ScheduleRow
  admin_permission : List AdminPermRow
  priority : List PriorityRow
  voice_sessions : List VoiceSessionRow
deriving DecidableEq

/-- The empty store. -/
def emptyDatabase : Database := ⟨[], [], [], [], [], [], [], [], []⟩

/-! ## Dependent-table deletes (modelled from the spec) -/

/-- Modelled from the spec: `QueueMemberTable.unstore(guildId, channelId)`
is not among the sources.  Section 3: entries are destroyed (row deleted);
deleting a queue deletes its member rows. -/
def QueueMemberTable.unstore (channelId : Nat) (db : Database) : Database :=
  { db with queue_members := db.queue_members.filter (fun r => !(r.channel_id == channelId)) }

/-- Modelled from the spec: `DisplayChannelTable.unstore(queueChannelId)`
is not among the sources.  Section 3: a display binding is destroyed when
the queue is deleted. -/
def DisplayChannelTable.unstore (queueChannelId : Nat) (db : Database) : Database :=
  { db with display_channels :=
      db.display_channels.filter (fun r => !(r.queue_channel_id == queueChannelId)) }

/-- Modelled from the spec: `BlackWhiteListTable.unstore(type, channelId)`
is not among the sources.  Called with type 2 on queue deletion, it removes
the black- and white-list entries of that queue (type 0 or 1 removes one
list only). -/
def BlackWhiteListTable.unstore (t : Nat) (channelId : Nat) (db : Database) : Database :=
  { db with black_white_list :=
      db.black_white_list.filter (fun r =>
        !(r.queue_channel_id == channelId && (t == 2 || r.list_type == t))) }

/-- Modelled from the spec: `ScheduleTable.unstore(queueChannelId)` is not
among the sources; schedules are keyed by their queue and deleted with it. -/
def ScheduleTable.unstore (queueChannelId : Nat) (db : Database) : Database :=
  { db with schedules :=
      db.schedules.filter (fun r => !(r.queue_channel_id == queueChannelId)) }

/-! ## QueueTable (from `src/src/utilities/ParsingUtils.ts`, second file part) -/

/-- `QueueTable.get`: the first `queue_channels` row with the given
channel identifier. -/
def QueueTable.get (queueChannelId : Nat) (db : Database) : Option StoredQueue :=
  db.queue_channels.find? (fun q => q.queue_channel_id == queueChannelId)

/-- `QueueTable.deleteQueueRole`, database part: the role column of the
queue row is reset to its default (`null`); the external role deletion has
no effect on the store. -/
def QueueTable.deleteQueueRole (channelId : Nat) (db : Database) : Database :=
  { db with queue_channels :=
      db.queue_channels.map (fun q =>
        if q.queue_channel_id == channelId then { q with role_id := none } else q) }

/-- The `where` clauses of the `query` in `QueueTable.unstore`:
`guild_id = guildId`, and `queue_channel_id = channelId` when a channel was
named. -/
def queueMatches (guildId : Nat) (channelId : Option Nat) (q : StoredQueue) : Bool :=
  q.guild_id == guildId &&
    (match channelId with
     | some c => q.queue_channel_id == c
     | none => true)

/-- The body of the loop in `QueueTable.unstore`: for one matched queue
row, delete its role binding and its dependent rows in the four dependent
tables. -/
def QueueTable.unstoreDependents (q : StoredQueue) (db : Database) : Database :=
  ScheduleTable.unstore q.queue_channel_id
    (QueueMemberTable.unstore q.queue_channel_id
      (DisplayChannelTable.unstore q.queue_channel_id
        (BlackWhiteListTable.unstore 2 q.queue_channel_id
          (QueueTable.deleteQueueRole q.queue_channel_id db))))

/-- `QueueTable.unstore(guildId, channelId?)`: select the matching queue
rows, delete each one's dependent rows, then delete the selected rows
themselves (`query.delete()`). -/
def QueueTable.unstore (guildId : Nat) (channelId : Option Nat) (db : Database) : Database :=
  let queueChannels := db.queue_channels.filter (queueMatches guildId channelId)
  let db1 := queueChannels.foldl (fun d q => QueueTable.unstoreDependents q d) db
  { db1 with queue_channels :=
      db1.queue_channels.filter (fun q => !(queueMatches guildId channelId q)) }

/-! ## Table bootstrap (`initTable`) -/

/-- The schema state the `initTable` bootstrap sees: for each table,
`none` when the table does not exist, otherwise its column list
(name, type), together with the stored rows. -/
structure SchemaState where
  queueChannelsSchema : Option (List (String × String))
  queueGuildsSchema : Option (List (String × String))
  queueChannelsRows : List StoredQueue
  queueGuildsRows : List StoredGuild
deriving DecidableEq

/-- The columns `QueueTable.initTable` creates, in source order. -/
def queueChannelsColumns : List (String × String) :=
  [("queue_channel_id", "bigInteger primary"),
   ("auto_fill", "integer"),
   ("color", "text"),
   ("enable_partial_pull", "boolean"),
   ("grace_period", "integer"),
   ("guild_id", "bigInteger"),
   ("header", "text"),
   ("hide_button", "boolean"),
   ("is_locked", "boolean"),
   ("max_members", "integer"),
   ("pull_num", "integer"),
   ("target_channel_id", "bigInteger"),
   ("mute", "boolean")]

/-- The columns `QueueGuildTable.initTable` creates, in source order. -/
def queueGuildsColumns : List (String × String) :=
  [("guild_id", "bigInteger primary"),
   ("disable_mentions", "boolean"),
   ("disable_notifications", "boolean"),
   ("disable_roles", "boolean"),
   ("logging_channel_id", "bigInteger"),
   ("logging_channel_level", "integer"),
   ("msg_mode", "integer"),
   ("role_prefix", "text"),
   ("timestamps", "text defaultTo off")]

/-- `QueueTable.initTable`: `hasTable("queue_channels")`, and
`createTable` only when it does not exist (a new table has no rows). -/
def QueueTable.initTable (s : SchemaState) : SchemaState :=
  match s.queueChannelsSchema with
  | some _ => s
  | none => { s with queueChannelsSchema := some queueChannelsColumns, queueChannelsRows := [] }

/-- `QueueGuildTable.initTable`: `hasTable("queue_guilds")`, and
`createTable` only when it does not exist. -/
def QueueGuildTable.initTable (s : SchemaState) : SchemaState :=
  match s.queueGuildsSchema with
  | some _ => s
  | none => { s with queueGuildsSchema := some queueGuildsColumns, queueGuildsRows := [] }

/-! ## QueueGuildTable (from the `QueueGuildTable.ts` source part) -/

/-- `QueueGuildTable.get`: the first `queue_guilds` row with the given
guild identifier (`where("guild_id", guildId).first()`). -/
def QueueGuildTable.get (guildId : Nat) (db : Database) : Option StoredGuild :=
  db.queue_guilds.find? (fun r => r.guild_id == guildId)

/-- The row `QueueGuildTable.store` inserts:
`insert({ guild_id: guild.id, msg_mode: 1 })` - every other column is left
to the database (`null`, except `timestamps`, whose column default is
"off"). -/
def QueueGuildTable.storeRow (guildId : Nat) : StoredGuild :=
  { guild_id := guildId
    disable_mentions := none
    disable_notifications := none
    disable_roles := none
    logging_channel_id := none
    logging_channel_level := none
    msg_mode := some 1
    rolePrefix := none
    timestamps := some "off" }

/-- `QueueGuildTable.store(guild)`: insert the new guild row. -/
def QueueGuildTable.store (guildId : Nat) (db : Database) : Database :=
  { db with queue_guilds := db.queue_guilds ++ [QueueGuildTable.storeRow guildId] }

/-- The display update modes of `QueueGuildTable.setMessageMode`
(source doc comment): 1 - old display messages are edited (DEFAULT);
2 - new messages are sent and old ones are deleted; 3 - new messages are
sent. -/
inductive MsgMode where
  | edit
  | resendAndDelete
  | resend
deriving DecidableEq

/-- The `msg_mode` column value of each display mode, from the
`setMessageMode` doc comment. -/
def MsgMode.code : MsgMode → Nat
  | .edit => 1
  | .resendAndDelete => 2
  | .resend => 3

/-- `QueueGuildTable.setMessageMode(guildId, mode)`: update `msg_mode` on
the guild row. -/
def QueueGuildTable.setMessageMode (guildId : Nat) (mode : Nat) (db : Database) : Database :=
  { db with queue_guilds :=
      db.queue_guilds.map (fun r =>
        if r.guild_id == guildId then { r with msg_mode := some mode } else r) }

/-! ## QueueTable.store and the admission engine -/

/-- Modelled from the spec: `QueueMemberTable.store` is not among the
sources.  Section 4.1: a join appends at the tail of the queue with the
next monotone order key (modelled as the current table length). -/
def QueueMemberTable.store (channelId memberId : Nat) (db : Database) : Database :=
  { db with queue_members :=
      db.queue_members ++
        [{ channel_id := channelId
           member_id := memberId
           created_at := db.queue_members.length
           is_priority := false }] }

/-- The row `QueueTable.store` inserts:
`insert({ auto_fill: 1, color, grace_period, guild_id, max_members,
pull_num: 1, queue_channel_id })` - other columns are left `null`. -/
def QueueTable.storeRow (configColor : String) (configGracePeriod : Nat)
    (guildId : Nat) (channelId : Nat) (maxMembers : Option Nat) : StoredQueue :=
  { queue_channel_id := channelId
    auto_fill := some 1
    color := some configColor
    enable_partial_pull := none
    grace_period := some configGracePeriod
    guild_id := guildId
    header := none
    hide_button := none
    is_locked := none
    max_members := maxMembers
    pull_num := some 1
    target_channel_id := none
    mute := none
    role_id := none }

/-- `QueueTable.store(parsed, channel, maxMembers?)`, database part:
insert the queue row; when the channel is a voice channel, also store a
member row for each of its current non-bot occupants. -/
def QueueTable.store (configColor : String) (configGracePeriod : Nat)
    (guildId : Nat) (channelId : Nat) (maxMembers : Option Nat)
    (isVoice : Bool) (occupants : List Nat) (db : Database) : Database :=
  let db1 := { db with queue_channels :=
      db.queue_channels ++
        [QueueTable.storeRow configColor configGracePeriod guildId channelId maxMembers] }
  if isVoice then
    occupants.foldl (fun d m => QueueMemberTable.store channelId m d) db1
  else db1

/-- The outcomes of an admission request (spec, sections 4.3 and 7). -/
inductive PullResult where
  | empty : PullResult
  | insufficientMembers : PullResult
  | destinationFull : PullResult
  | pulled : List Nat → PullResult
deriving DecidableEq

/-- Modelled from the spec: the admission engine (section 4.3) is not
among the sources.  `requested` is the explicit count or the configured
default pull count (`pull_num`); an empty queue reports `Empty`; a short
queue reports `InsufficientMembers` unless partial pull is enabled, in
which case all available members are pulled; a size-limited destination
caps the count by its headroom, and a zero cap reports `DestinationFull`;
otherwise the first `k` members of the ordered queue are pulled. -/
def admissionPull (queue : StoredQueue) (ordered : List Nat) (explicitCount : Option Nat)
    (destinationHeadroom : Option Nat) : PullResult :=
  let requested :=
    match explicitCount with
    | some n => n
    | none => queue.pull_num.getD 0
  let available := ordered.length
  if available == 0 then .empty
  else if available < requested && !(queue.enable_partial_pull.getD false) then
    .insufficientMembers
  else
    let base := min requested available
    match destinationHeadroom with
    | none => .pulled (ordered.take base)
    | some h => if min base h == 0 then .destinationFull else .pulled (ordered.take (min base h))

/-! ## The core command handlers (spec-modelled) and the requesting member -/

/-- The role data of a requesting member that
`ParsingUtils.checkPermission` consults: role identifiers, role names, and
the ADMINISTRATOR channel permission. -/
structure MemberCtx where
  id : Nat
  roleIds : List Nat
  roleNames : List String
  isAdmin : Bool
deriving DecidableEq

/-- The already-parsed, already-authorized intents of the
command/permission collaborator, all eight of spec section 6: `Join`,
`Leave`, `Pull(queue, count?)`, `Shuffle(queue)`, `Clear(queue)`,
`Kick(queue, members)`, `SetLimit(queue, n)`,
`ArmVoiceTransfer(queue)`. -/
inductive Intent where
  | join : Nat → Intent
  | leave : Nat → Intent
  | pull : Nat → Option Nat → Intent
  | shuffleQueue : Nat → List Nat → Intent
  | clear : Nat → Intent
  | kick : Nat → List Nat → Intent
  | setLimit : Nat → Nat → Intent
  | armVoiceTransfer : Nat → Intent
deriving DecidableEq

/-- The recoverable error taxonomy (spec, section 7). -/
inductive CoreError where
  | alreadyQueued
  | notQueued
  | locked
  | empty
  | insufficientMembers
  | destinationFull
deriving DecidableEq

/-- `listOrdered` (spec, section 4.1): the queue rows of one channel in
pull order - priority entries first, then ascending order key. -/
def listOrdered (channelId : Nat) (db : Database) : List QueueMemberRow :=
  List.mergeSort (db.queue_members.filter (fun r => r.channel_id == channelId))
    (fun a b =>
      if a.is_priority == b.is_priority then a.created_at ≤ b.created_at
      else a.is_priority)

/-- Modelled from the spec: the core command handlers are not among the
sources (only the parsing/permission collaborator is).  Section 6: the
core consumes already-authorized intents; sections 4.1 and 4.3 give the
queue operations, and section 4.4 gives `ArmVoiceTransfer`, which moves a
session from `IDLE` to `ARMED` binding the named source queue (at most one
outstanding session per queue).  The requesting member reaches the core as
a full member object; the handlers consult only its identifier, never its
role data. -/
def coreHandle (requester : MemberCtx) (intent : Intent) (db : Database) :
    Database × Option CoreError :=
  match intent with
  | .join q =>
      if db.queue_members.any (fun r => r.channel_id == q && r.member_id == requester.id) then
        (db, some .alreadyQueued)
      else if (QueueTable.get q db).bind StoredQueue.is_locked == some true then
        (db, some .locked)
      else (QueueMemberTable.store q requester.id db, none)
  | .leave q =>
      if db.queue_members.any (fun r => r.channel_id == q && r.member_id == requester.id) then
        ({ db with queue_members :=
            db.queue_members.filter (fun r =>
              !(r.channel_id == q && r.member_id == requester.id)) }, none)
      else (db, some .notQueued)
  | .pull q count =>
      match QueueTable.get q db with
      | none => (db, some .empty)
      | some queue =>
          match admissionPull queue ((listOrdered q db).map QueueMemberRow.member_id)
              count none with
          | .pulled ids =>
              ({ db with queue_members :=
                  db.queue_members.filter (fun r =>
                    !(r.channel_id == q && ids.contains r.member_id)) }, none)
          | .empty => (db, some .empty)
          | .insufficientMembers => (db, some .insufficientMembers)
          | .destinationFull => (db, some .destinationFull)
  | .shuffleQueue q cs =>
      let rows := db.queue_members.filter (fun r => r.channel_id == q)
      let shuffled := fisherYates cs rows
      ({ db with queue_members :=
          db.queue_members.filter (fun r => !(r.channel_id == q)) ++
            shuffled.enum.map (fun p => { p.2 with created_at := p.1 }) }, none)
  | .clear q =>
      ({ db with queue_members :=
          db.queue_members.filter (fun r => !(r.channel_id == q)) }, none)
  | .kick q members =>
      ({ db with queue_members :=
          db.queue_members.filter (fun r =>
            !(r.channel_id == q && members.contains r.member_id)) }, none)
  | .setLimit q n =>
      ({ db with queue_channels :=
          db.queue_channels.map (fun row =>
            if row.queue_channel_id == q then { row with max_members := some n } else row) },
        none)
  | .armVoiceTransfer q =>
      ({ db with voice_sessions :=
          if db.voice_sessions.any (fun s => s.source_queue_channel_id == q) then
            db.voice_sessions
          else db.voice_sessions ++ [⟨q⟩] }, none)

/-! ## ParsingUtils.checkPermission (from `src/src/utilities/ParsingUtils.ts`)

The platform calls the try-block makes are explicit inputs: the
`permissionsIn(channel)?.has("ADMINISTRATOR")` lookup (which may throw, or
yield no permissions object), the awaited
`AdminPermissionTable.getMany(guildId)` (which may reject), and the
compiled `permissionsRegexp` as a predicate on role names.  A missing
`request.member` is `none`. -/

/-- The try-block of `ParsingUtils.checkPermission`: return `false` for a
missing member; `true` for ADMINISTRATOR, for a permission-table entry
matching a role or the member identifier, or for a role name matching the
permissions regexp; otherwise fall through to `false`. -/
def checkPermissionTry (adminPerm : Except Unit (Option Bool))
    (entriesResult : Except Unit (List AdminPermRow))
    (regexTest : String → Bool) (member : Option MemberCtx) : Except Unit Bool :=
  match member with
  | none => .ok false
  | some m => do
      let perms ← adminPerm
      if perms.getD false then pure true
      else do
        let entries ← entriesResult
        if entries.any (fun e =>
            m.roleIds.contains e.role_member_id || m.id == e.role_member_id) then
          pure true
        else if m.roleNames.any regexTest then pure true
        else pure false

/-- `ParsingUtils.checkPermission`: the try-block under its catch - any
exception is swallowed and the function returns `false`. -/
def ParsingUtils.checkPermission (adminPerm : Except Unit (Option Bool))
    (entriesResult : Except Unit (List AdminPermRow))
    (regexTest : String → Bool) (member : Option MemberCtx) : Bool :=
  match checkPermissionTry adminPerm entriesResult regexTest member with
  | .ok b => b
  | .error _ => false

/-! ## Parsed.verifyNumber and Parsed.verifyArgs -/

/-- `Parsed.verifyNumber(min, max, defaultValue)`: the loop body is
`numbers[i] = number ? Math.max(Math.min(number, max), min) : defaultValue`.
A number argument is `Option Int` (`none` for `null`/`undefined`); the JS
condition `number ?` is false exactly for `0`, `null` and `undefined`. -/
def Parsed.verifyNumber (vmin vmax : Int) (defaultValue : Option Int) :
    List (Option Int) → List (Option Int)
  | [] => []
  | some v :: rest =>
      (if v != 0 then some (max (min v vmax) vmin) else defaultValue) ::
        Parsed.verifyNumber vmin vmax defaultValue rest
  | none :: rest => defaultValue :: Parsed.verifyNumber vmin vmax defaultValue rest

/-- The `RequiredType` of a command argument (`Interfaces.ts` is not among
the sources; the two members are named in `RequiredOptions` usage). -/
inductive RequiredType where
  | required
  | optional
deriving DecidableEq

/-- The `numbers` entry of `RequiredOptions`. -/
structure NumbersConf where
  required : Option RequiredType
  min : Int
  max : Int
  defaultValue : Option Int
deriving DecidableEq

/-- `RequiredOptions`: which argument kinds a command requires.  The
channel entry keeps only its `required` field here (its `type` filter is a
separate input of the channel-resolution step). -/
structure RequiredOptionsModel where
  command : String
  channelRequired : Option RequiredType
  membersReq : Option RequiredType
  rolesReq : Option RequiredType
  stringsReq : Option RequiredType
  numbers : Option NumbersConf
  booleansReq : Option RequiredType
deriving DecidableEq

/-- The argument record `Parsed.args` as `verifyArgs` sees it: `channels`,
`members` and `roles` are `undefined` (`none`) until `parseArgs` sets
them; `strings`, `numbers` and `booleans` start as empty arrays. -/
structure ArgsModel where
  channels : Option (List Nat)
  members : Option (List Nat)
  roles : Option (List Nat)
  strings : List String
  numbers : List (Option Int)
  booleans : List Bool
deriving DecidableEq

/-- `Parsed.verifyArgs(conf)`: collect the names of missing required
arguments in source order (channel, role, member, number, string,
boolean); a required, present `numbers` argument is normalized in place by
`verifyNumber`; when names are missing an ephemeral error reply is sent
with `.catch(() => null)`, whose outcome (`replyResult`) is discarded.
The member check is on `members?.size`, so an empty member collection
counts as missing; the role check is on `args.roles` itself, so a role
collection set by `parseArgs` is never missing, empty or not.  The pushed
channel name is plain "channel": `QUEUABLE_TEXT_CHANNELS.includes(conf.channel.type)`
compares the type array itself against scalar entries, which is always
false, so neither prefix is added. -/
def Parsed.verifyArgs (conf : RequiredOptionsModel) (args : ArgsModel)
    (replyResult : Except Unit Unit) : ArgsModel × List String :=
  let missing1 :=
    if conf.channelRequired.isSome && args.channels.isNone then ["channel"] else []
  let missing2 := missing1 ++
    (if conf.rolesReq == some .required && args.roles.isNone then ["role"] else [])
  let missing3 := missing2 ++
    (if conf.membersReq == some .required && (args.members.getD []).isEmpty then ["member"]
     else [])
  let step4 : ArgsModel × List String :=
    match conf.numbers with
    | some nc =>
        if nc.required == some .required then
          if !args.numbers.isEmpty then
            ({ args with numbers := Parsed.verifyNumber nc.min nc.max nc.defaultValue args.numbers },
              missing3)
          else (args, missing3 ++ ["number"])
        else (args, missing3)
    | none => (args, missing3)
  let missing5 := step4.2 ++
    (if conf.stringsReq == some .required && args.strings.isEmpty then ["string"] else [])
  let missing6 := missing5 ++
    (if conf.booleansReq == some .required && args.booleans.isEmpty then ["boolean"] else [])
  let _replyOutcome : Unit :=
    if missing6.isEmpty then ()
    else match replyResult with
      | .ok _ => ()
      | .error _ => ()
  (step4.1, missing6)

/-- Whether one required argument kind is missing, named as `verifyArgs`
names it.  This is the specification-side reading of the checks, compared
against the sequential embedding above. -/
def requiredArgMissing (conf : RequiredOptionsModel) (args : ArgsModel) : String → Bool
  | "channel" => conf.channelRequired.isSome && args.channels.isNone
  | "role" => conf.rolesReq == some .required && args.roles.isNone
  | "member" => conf.membersReq == some .required && (args.members.getD []).isEmpty
  | "number" =>
      (match conf.numbers with
       | some nc => nc.required == some .required && args.numbers.isEmpty
       | none => false)
  | "string" => conf.stringsReq == some .required && args.strings.isEmpty
  | "boolean" => conf.booleansReq == some .required && args.booleans.isEmpty
  | _ => false

/-- The list of missing required argument names, in report order. -/
def missingArgNames (conf : RequiredOptionsModel) (args : ArgsModel) : List String :=
  ["channel", "role", "member", "number", "string", "boolean"].filter
    (requiredArgMissing conf args)

/-! ## Channel resolution in Parsed.parseArgs (lines 166-196) -/

/-- A guild channel as the resolution step sees it: its snowflake
identifier and its channel type. -/
structure ChannelModel where
  id : String
  type : Nat
deriving DecidableEq

/-- The stored queue channels surviving the `conf.channel.type` filter:
`channels.filter((ch) => conf.channel.type.includes(ch.type))`, or all of
them when no filter is configured. -/
def matchingQueueChannels (queueChannels : List ChannelModel)
    (typeFilter : Option (List Nat)) : List ChannelModel :=
  match typeFilter with
  | some ts => queueChannels.filter (fun ch => ts.contains ch.type)
  | none => queueChannels

/-- The `else` branch of the channel block of `Parsed.parseArgs`: no
queuable channel argument was supplied.  One stored match is taken as is;
otherwise a first string argument "ALL" selects every match, or a first
string argument equal to a stored match's identifier selects that channel;
in the latter two cases the consumed string is spliced off.  (JS note: in
the "ALL" case an empty match list is still assigned, and an empty array
is truthy, so the splice happens there too.) -/
def resolveFromStored (queueChannels : List ChannelModel) (typeFilter : Option (List Nat))
    (strings : List String) : Option (List ChannelModel) × List String :=
  let channels := matchingQueueChannels queueChannels typeFilter
  if channels.length == 1 then (some channels, strings)
  else
    let selected : Option (List ChannelModel) :=
      if strings.head? == some "ALL" then some channels
      else
        match channels.find? (fun ch => strings.head? == some ch.id) with
        | some ch => some [ch]
        | none => none
    match selected with
    | some cs => (some cs, strings.drop 1)
    | none => (none, strings)

/-- The channel block of `Parsed.parseArgs` (`if (conf.channel)`): a
supplied channel argument of a queuable type is taken directly; any other
case falls to the stored-queue resolution. -/
def resolveQueueChannels (queuable : Nat → Bool) (channelArg : Option ChannelModel)
    (queueChannels : List ChannelModel) (typeFilter : Option (List Nat))
    (strings : List String) : Option (List ChannelModel) × List String :=
  match channelArg with
  | some ch =>
      if queuable ch.type then (some [ch], strings)
      else resolveFromStored queueChannels typeFilter strings
  | none => resolveFromStored queueChannels typeFilter strings

/-! ## Theorems

First the shuffle (claims C1, C2). -/

theorem cons_set_perm {α : Type} {t : List α} {j : Nat} {a b : α} (h : t[j]? = some b) :
    (b :: t.set j a).Perm (a :: t) := by
  induction t generalizing j with
  | nil => simp at h
  | cons c t ih =>
    cases j with
    | zero =>
      simp only [List.getElem?_cons_zero, Option.some.injEq] at h
      subst h
      exact List.Perm.swap _ _ _
    | succ k =>
      simp only [List.getElem?_cons_succ] at h
      show (b :: c :: t.set k a).Perm (a :: c :: t)
      exact (List.Perm.swap c b _).trans (((ih h).cons c).trans (List.Perm.swap a c t))

theorem set_set_perm {α : Type} {l : List α} {i j : Nat} {a b : α}
    (hi : l[i]? = some a) (hj : l[j]? = some b) : ((l.set i b).set j a).Perm l := by
  induction l generalizing i j with
  | nil => simp at hi
  | cons c t ih =>
    cases i with
    | zero =>
      simp only [List.getElem?_cons_zero, Option.some.injEq] at hi
      subst hi
      cases j with
      | zero =>
        simp only [List.getElem?_cons_zero, Option.some.injEq] at hj
        subst hj
        exact List.Perm.refl _
      | succ k =>
        simp only [List.getElem?_cons_succ] at hj
        exact cons_set_perm hj
    | succ m =>
      simp only [List.getElem?_cons_succ] at hi
      cases j with
      | zero =>
        simp only [List.getElem?_cons_zero, Option.some.injEq] at hj
        subst hj
        exact cons_set_perm hi
      | succ k =>
        simp only [List.getElem?_cons_succ] at hj
        exact (ih hi hj).cons c

theorem swapIdx_perm {α : Type} (l : List α) (i j : Nat) : (swapIdx l i j).Perm l := by
  unfold swapIdx
  split
  · rename_i a b hi hj
    exact set_set_perm hi hj
  · exact List.Perm.refl _

theorem fisherYatesFrom_perm {α : Type} (i : Nat) (cs : List Nat) (l : List α) :
    (fisherYatesFrom i cs l).Perm l := by
  induction i generalizing cs l with
  | zero => exact .refl _
  | succ i ih =>
    cases cs with
    | nil => exact .refl _
    | cons c cs =>
      exact (ih cs _).trans (swapIdx_perm l (i + 1) c)

theorem setProp_entries {α : Type} (c : JSCollection α) (i : Nat) (v : Option α) :
    (c.setProp i v).entries = c.entries := by
  cases v <;> rfl

theorem shuffleCollFrom_entries {α : Type} (i : Nat) (cs : List Nat) (c : JSCollection α) :
    (shuffleCollFrom i cs c).entries = c.entries := by
  induction i generalizing cs c with
  | zero => rfl
  | succ i ih =>
    cases cs with
    | nil => rfl
    | cons j cs =>
      rw [shuffleCollFrom, ih, setProp_entries, setProp_entries]

/-- C1: `Base.shuffle` only permutes - on an array the multiset of entries
after shuffling equals the multiset before it, whatever random indices the
loop draws; on a Collection input the bracket swaps touch only numeric own
properties, so the entry multiset (indeed the entry list) is unchanged.
No member is added, duplicated or lost in either case. -/
theorem claim_C1_shuffle_preserves_members :
    (∀ (α : Type) (cs : List Nat) (l : List α),
        (↑(fisherYates cs l) : Multiset α) = (↑l : Multiset α)) ∧
    (∀ (α : Type) (cs : List Nat) (c : JSCollection α),
        (shuffleColl cs c).entries = c.entries) := by
  constructor
  · intro α cs l
    exact Multiset.coe_eq_coe.mpr (fisherYatesFrom_perm _ _ _)
  · intro α cs c
    exact shuffleCollFrom_entries _ _ _

theorem swapIdx_length {α : Type} (l : List α) (i j : Nat) :
    (swapIdx l i j).length = l.length := by
  unfold swapIdx
  split
  · simp [List.length_set]
  · rfl

theorem mem_choiceSeqs_succ {i : Nat} {cs : List Nat} :
    cs ∈ choiceSeqs (i + 1) ↔ ∃ c t, c < i + 2 ∧ t ∈ choiceSeqs i ∧ cs = c :: t := by
  show cs ∈ (List.range (i + 2)).flatMap (fun c => (choiceSeqs i).map (fun t => c :: t)) ↔ _
  simp only [List.mem_flatMap, List.mem_map, List.mem_range]
  constructor
  · rintro ⟨c, hc, t, ht, rfl⟩
    exact ⟨c, t, hc, ht, rfl⟩
  · rintro ⟨c, t, hc, ht, rfl⟩
    exact ⟨c, hc, t, ht, rfl⟩

theorem swapIdx_getElem?_of_ne {α : Type} {l : List α} {i j k : Nat}
    (hki : k ≠ i) (hkj : k ≠ j) : (swapIdx l i j)[k]? = l[k]? := by
  unfold swapIdx
  split
  · rw [List.getElem?_set_ne (Ne.symm hkj), List.getElem?_set_ne (Ne.symm hki)]
  · rfl

theorem swapIdx_getElem?_left {α : Type} {l : List α} {i j : Nat} {a b : α}
    (hi : l[i]? = some a) (hj : l[j]? = some b) : (swapIdx l i j)[i]? = some b := by
  have hil : i < l.length := by
    rcases List.getElem?_eq_some.mp hi with ⟨h, _⟩
    exact h
  have hswap : swapIdx l i j = (l.set i b).set j a := by
    unfold swapIdx
    rw [hi, hj]
  rw [hswap]
  by_cases hij : i = j
  · subst hij
    have hab : a = b := Option.some.inj (hi.symm.trans hj)
    subst hab
    rw [List.set_set]
    exact List.getElem?_set_self hil
  · rw [List.getElem?_set_ne (Ne.symm hij)]
    exact List.getElem?_set_self hil

theorem fisherYatesFrom_getElem?_high {α : Type} {i : Nat} {cs : List Nat}
    (hcs : cs ∈ choiceSeqs i) {l : List α} {m : Nat} (hm : i < m) :
    (fisherYatesFrom i cs l)[m]? = l[m]? := by
  induction i generalizing cs l with
  | zero => rfl
  | succ i ih =>
    obtain ⟨c, t, hc, ht, rfl⟩ := mem_choiceSeqs_succ.mp hcs
    show (fisherYatesFrom i t (swapIdx l (i + 1) c))[m]? = l[m]?
    rw [ih ht (Nat.lt_of_succ_lt hm)]
    exact swapIdx_getElem?_of_ne (by omega) (by omega)

theorem fisherYatesFrom_succ_last {α : Type} {i c : Nat} {t : List Nat}
    (ht : t ∈ choiceSeqs i) {l : List α} (hc : c < i + 2) (hlen : i + 1 < l.length) :
    (fisherYatesFrom (i + 1) (c :: t) l)[i + 1]? = l[c]? := by
  show (fisherYatesFrom i t (swapIdx l (i + 1) c))[i + 1]? = l[c]?
  rw [fisherYatesFrom_getElem?_high ht (Nat.lt_succ_self i)]
  have hclen : c < l.length := by omega
  have h1 := List.getElem?_eq_getElem hlen
  have h2 := List.getElem?_eq_getElem hclen
  rw [swapIdx_getElem?_left h1 h2]
  exact h2.symm

theorem length_choiceSeqs (i : Nat) : (choiceSeqs i).length = (i + 1).factorial := by
  induction i with
  | zero => rfl
  | succ i ih =>
    show ((List.range (i + 2)).flatMap (fun c => (choiceSeqs i).map (fun t => c :: t))).length = _
    rw [List.length_flatMap]
    have h2 : List.map (List.length ∘ fun c => (choiceSeqs i).map (fun t => c :: t))
        (List.range (i + 2)) = List.replicate (i + 2) ((i + 1).factorial) := by
      apply List.eq_replicate_iff.mpr
      constructor
      · simp
      · intro b hb
        simp only [List.mem_map, Function.comp] at hb
        obtain ⟨c, _, rfl⟩ := hb
        rw [List.length_map, ih]
    rw [h2, List.sum_replicate, smul_eq_mul]
    simp [Nat.factorial_succ]

theorem nodup_choiceSeqs (i : Nat) : (choiceSeqs i).Nodup := by
  induction i with
  | zero => simp [choiceSeqs]
  | succ i ih =>
    show ((List.range (i + 2)).flatMap (fun c => (choiceSeqs i).map (fun t => c :: t))).Nodup
    apply List.nodup_flatMap.mpr
    constructor
    · intro c _
      exact ih.map (fun x y hxy => by injection hxy)
    · apply List.Pairwise.imp ?_ (List.nodup_range (i + 2))
      intro a b hab x hxa hxb
      simp only [List.mem_map] at hxa hxb
      obtain ⟨ta, _, rfl⟩ := hxa
      obtain ⟨tb, _, htb⟩ := hxb
      injection htb with hhead _
      exact hab hhead.symm

theorem fisherYatesFrom_inj {α : Type} {l : List α} {i : Nat} (hl : l.Nodup)
    (hi : i < l.length) {cs1 cs2 : List Nat} (h1 : cs1 ∈ choiceSeqs i)
    (h2 : cs2 ∈ choiceSeqs i)
    (heq : fisherYatesFrom i cs1 l = fisherYatesFrom i cs2 l) : cs1 = cs2 := by
  induction i generalizing l cs1 cs2 with
  | zero =>
    have e1 : cs1 = [] := by simpa [choiceSeqs] using h1
    have e2 : cs2 = [] := by simpa [choiceSeqs] using h2
    rw [e1, e2]
  | succ i ih =>
    obtain ⟨c1, t1, hc1, ht1, rfl⟩ := mem_choiceSeqs_succ.mp h1
    obtain ⟨c2, t2, hc2, ht2, rfl⟩ := mem_choiceSeqs_succ.mp h2
    have hlast : l[c1]? = l[c2]? := by
      rw [← fisherYatesFrom_succ_last ht1 hc1 hi, ← fisherYatesFrom_succ_last ht2 hc2 hi, heq]
    have hc1l : c1 < l.length := by omega
    have hceq : c1 = c2 := List.getElem?_inj hc1l hl hlast
    subst hceq
    have hswap : fisherYatesFrom i t1 (swapIdx l (i + 1) c1) =
        fisherYatesFrom i t2 (swapIdx l (i + 1) c1) := heq
    have hnodup : (swapIdx l (i + 1) c1).Nodup :=
      ((swapIdx_perm l (i + 1) c1).nodup_iff).mpr hl
    have hlen : i < (swapIdx l (i + 1) c1).length := by
      rw [swapIdx_length]
      omega
    rw [ih hnodup hlen ht1 ht2 hswap]

/-- C2: when step `i` of `Base.shuffle` draws its index uniformly from
`0..i`, the resulting permutation is uniform.  Formally: over the list
`choiceSeqs (n - 1)` of all (equally likely) draw sequences, mapping the
shuffle over a duplicate-free array of length `n` hits every one of the
`n!` permutations exactly once - the image list is a permutation of
`l.permutations`, so each permutation has probability `1 / n!`. -/
theorem claim_C2_fisher_yates_uniform {α : Type} (l : List α) (hl : l.Nodup) :
    ((choiceSeqs (l.length - 1)).map (fun cs => fisherYates cs l)).Perm l.permutations := by
  rcases l with _ | ⟨a, t⟩
  · show [fisherYates [] ([] : List α)].Perm [].permutations
    rw [List.permutations_nil]
    exact List.Perm.refl _
  · have hlt : (a :: t).length - 1 < (a :: t).length := by simp
    have hnd : ((choiceSeqs ((a :: t).length - 1)).map
        (fun cs => fisherYates cs (a :: t))).Nodup := by
      apply List.Nodup.map_on ?_ (nodup_choiceSeqs _)
      intro cs1 hcs1 cs2 hcs2 heq
      exact fisherYatesFrom_inj hl hlt hcs1 hcs2 heq
    have hsub : ((choiceSeqs ((a :: t).length - 1)).map
        (fun cs => fisherYates cs (a :: t))) ⊆ (a :: t).permutations := by
      intro x hx
      simp only [List.mem_map] at hx
      obtain ⟨cs, _, rfl⟩ := hx
      exact List.mem_permutations.mpr (fisherYatesFrom_perm _ _ _)
    apply (hnd.subperm hsub).perm_of_length_le
    rw [List.length_permutations, List.length_map, length_choiceSeqs]
    simp

/-- Witness for C2 at the concrete array `[0, 1, 2]`: its 3! = 6 draw
sequences produce its 6 permutations, one each. -/
theorem claim_C2_witness :
    ((choiceSeqs (([0, 1, 2] : List Nat).length - 1)).map
        (fun cs => fisherYates cs ([0, 1, 2] : List Nat))).Perm
      ([0, 1, 2] : List Nat).permutations :=
  claim_C2_fisher_yates_uniform [0, 1, 2] (by decide)

/-! Claim C3: `QueueTable.unstore` and its dependent-row deletes. -/

theorem unstoreDependents_queue_members (q : StoredQueue) (db : Database) :
    (QueueTable.unstoreDependents q db).queue_members =
      db.queue_members.filter (fun r => !(r.channel_id == q.queue_channel_id)) := rfl

theorem unstoreDependents_display_channels (q : StoredQueue) (db : Database) :
    (QueueTable.unstoreDependents q db).display_channels =
      db.display_channels.filter (fun r => !(r.queue_channel_id == q.queue_channel_id)) := rfl

theorem unstoreDependents_black_white_list (q : StoredQueue) (db : Database) :
    (QueueTable.unstoreDependents q db).black_white_list =
      db.black_white_list.filter (fun r =>
        !(r.queue_channel_id == q.queue_channel_id && (2 == 2 || r.list_type == 2))) := rfl

theorem unstoreDependents_schedules (q : StoredQueue) (db : Database) :
    (QueueTable.unstoreDependents q db).schedules =
      db.schedules.filter (fun r => !(r.queue_channel_id == q.queue_channel_id)) := rfl

theorem unstoreDependents_queue_channels (q : StoredQueue) (db : Database) :
    (QueueTable.unstoreDependents q db).queue_channels =
      db.queue_channels.map (fun r =>
        if r.queue_channel_id == q.queue_channel_id then { r with role_id := none } else r) := rfl

theorem mem_foldl_filter {α β : Type} (p : β → α → Bool) (l : List β) (init : List α) (r : α)
    (hr : r ∈ l.foldl (fun acc b => acc.filter (p b)) init) :
    r ∈ init ∧ ∀ b ∈ l, p b r = true := by
  induction l generalizing init with
  | nil => exact ⟨hr, fun b hb => absurd hb (List.not_mem_nil b)⟩
  | cons b bs ih =>
    obtain ⟨h1, h2⟩ := ih (init.filter (p b)) hr
    rw [List.mem_filter] at h1
    refine ⟨h1.1, ?_⟩
    intro b2 hb2
    rcases List.mem_cons.mp hb2 with h | h
    · rw [h]
      exact h1.2
    · exact h2 b2 h

theorem unstoreFold_queue_members (matched : List StoredQueue) (db : Database) :
    (matched.foldl (fun d q => QueueTable.unstoreDependents q d) db).queue_members =
      matched.foldl
        (fun ms q => ms.filter (fun r => !(r.channel_id == q.queue_channel_id)))
        db.queue_members := by
  induction matched generalizing db with
  | nil => rfl
  | cons q qs ih =>
    rw [List.foldl_cons, List.foldl_cons, ih, unstoreDependents_queue_members]

theorem unstoreFold_display_channels (matched : List StoredQueue) (db : Database) :
    (matched.foldl (fun d q => QueueTable.unstoreDependents q d) db).display_channels =
      matched.foldl
        (fun ms q => ms.filter (fun r => !(r.queue_channel_id == q.queue_channel_id)))
        db.display_channels := by
  induction matched generalizing db with
  | nil => rfl
  | cons q qs ih =>
    rw [List.foldl_cons, List.foldl_cons, ih, unstoreDependents_display_channels]

theorem unstoreFold_black_white_list (matched : List StoredQueue) (db : Database) :
    (matched.foldl (fun d q => QueueTable.unstoreDependents q d) db).black_white_list =
      matched.foldl
        (fun ms q => ms.filter (fun r =>
          !(r.queue_channel_id == q.queue_channel_id && (2 == 2 || r.list_type == 2))))
        db.black_white_list := by
  induction matched generalizing db with
  | nil => rfl
  | cons q qs ih =>
    rw [List.foldl_cons, List.foldl_cons, ih, unstoreDependents_black_white_list]

theorem unstoreFold_schedules (matched : List StoredQueue) (db : Database) :
    (matched.foldl (fun d q => QueueTable.unstoreDependents q d) db).schedules =
      matched.foldl
        (fun ms q => ms.filter (fun r => !(r.queue_channel_id == q.queue_channel_id)))
        db.schedules := by
  induction matched generalizing db with
  | nil => rfl
  | cons q qs ih =>
    rw [List.foldl_cons, List.foldl_cons, ih, unstoreDependents_schedules]

theorem unstoreFold_queue_channels_ids (matched : List StoredQueue) (db : Database) :
    ((matched.foldl (fun d q => QueueTable.unstoreDependents q d) db).queue_channels).map
        (fun r => (r.queue_channel_id, r.guild_id)) =
      db.queue_channels.map (fun r => (r.queue_channel_id, r.guild_id)) := by
  induction matched generalizing db with
  | nil => rfl
  | cons q qs ih =>
    rw [List.foldl_cons, ih, unstoreDependents_queue_channels, List.map_map]
    apply List.map_congr_left
    intro r _
    by_cases h : r.queue_channel_id == q.queue_channel_id <;> simp [Function.comp, h]

/-- C3: `QueueTable.unstore(guildId, channelId)` deletes the queue row and
every dependent row keyed by that queue - member entries, display
bindings, black/white-list entries and schedules - so no stored row
references the deleted queue afterwards.  The hypotheses say the queue row
exists under that guild and that channel identifiers are unique (the
primary-key invariant of `queue_channels`). -/
theorem claim_C3_unstore_deletes_queue_and_dependents (g c : Nat) (db : Database)
    (hq : ∃ q ∈ db.queue_channels, q.queue_channel_id = c ∧ q.guild_id = g)
    (hnodup : (db.queue_channels.map StoredQueue.queue_channel_id).Nodup) :
    (∀ q ∈ (QueueTable.unstore g (some c) db).queue_channels, q.queue_channel_id ≠ c) ∧
    (∀ r ∈ (QueueTable.unstore g (some c) db).queue_members, r.channel_id ≠ c) ∧
    (∀ r ∈ (QueueTable.unstore g (some c) db).display_channels, r.queue_channel_id ≠ c) ∧
    (∀ r ∈ (QueueTable.unstore g (some c) db).black_white_list, r.queue_channel_id ≠ c) ∧
    (∀ r ∈ (QueueTable.unstore g (some c) db).schedules, r.queue_channel_id ≠ c) := by
  obtain ⟨q0, hq0mem, hq0c, hq0g⟩ := hq
  have hq0matched : q0 ∈ db.queue_channels.filter (queueMatches g (some c)) := by
    rw [List.mem_filter]
    refine ⟨hq0mem, ?_⟩
    simp [queueMatches, hq0c, hq0g]
  refine ⟨?_, ?_, ?_, ?_, ?_⟩
  · intro q hqmem
    have hqmem2 : q ∈ ((db.queue_channels.filter (queueMatches g (some c))).foldl
        (fun d q => QueueTable.unstoreDependents q d) db).queue_channels.filter
          (fun q => !(queueMatches g (some c) q)) := hqmem
    rw [List.mem_filter] at hqmem2
    obtain ⟨hq1, hq2⟩ := hqmem2
    intro hcc
    have hpair : (q.queue_channel_id, q.guild_id) ∈
        db.queue_channels.map (fun r => (r.queue_channel_id, r.guild_id)) := by
      rw [← unstoreFold_queue_channels_ids (db.queue_channels.filter (queueMatches g (some c))) db]
      exact List.mem_map.mpr ⟨q, hq1, rfl⟩
    rw [List.mem_map] at hpair
    obtain ⟨q2, hq2mem, hq2pair⟩ := hpair
    have hq2c : q2.queue_channel_id = c := by
      have := congrArg Prod.fst hq2pair
      simpa [hcc] using this
    have hq2g : q2.guild_id = q.guild_id := congrArg Prod.snd hq2pair
    have hq2eq : q2 = q0 :=
      List.inj_on_of_nodup_map hnodup hq2mem hq0mem (by rw [hq2c, hq0c])
    have hqg : q.guild_id = g := by rw [← hq2g, hq2eq, hq0g]
    rw [queueMatches] at hq2
    simp [hcc, hqg] at hq2
  · intro r hr
    have hr2 : r ∈ ((db.queue_channels.filter (queueMatches g (some c))).foldl
        (fun d q => QueueTable.unstoreDependents q d) db).queue_members := hr
    rw [unstoreFold_queue_members] at hr2
    have := (mem_foldl_filter _ _ _ _ hr2).2 q0 hq0matched
    simpa [hq0c] using this
  · intro r hr
    have hr2 : r ∈ ((db.queue_channels.filter (queueMatches g (some c))).foldl
        (fun d q => QueueTable.unstoreDependents q d) db).display_channels := hr
    rw [unstoreFold_display_channels] at hr2
    have := (mem_foldl_filter _ _ _ _ hr2).2 q0 hq0matched
    simpa [hq0c] using this
  · intro r hr
    have hr2 : r ∈ ((db.queue_channels.filter (queueMatches g (some c))).foldl
        (fun d q => QueueTable.unstoreDependents q d) db).black_white_list := hr
    rw [unstoreFold_black_white_list] at hr2
    have := (mem_foldl_filter _ _ _ _ hr2).2 q0 hq0matched
    simpa [hq0c] using this
  · intro r hr
    have hr2 : r ∈ ((db.queue_channels.filter (queueMatches g (some c))).foldl
        (fun d q => QueueTable.unstoreDependents q d) db).schedules := hr
    rw [unstoreFold_schedules] at hr2
    have := (mem_foldl_filter _ _ _ _ hr2).2 q0 hq0matched
    simpa [hq0c] using this

/-- A concrete store exercising C3: guild 7 owns queue channel 4 with one
member, one display binding, one blacklist entry and one schedule, plus an
unrelated queue channel 9. -/
def exampleDatabaseC3 : Database :=
  { queue_guilds := [QueueGuildTable.storeRow 7]
    queue_channels :=
      [QueueTable.storeRow "RED" 0 7 4 none, QueueTable.storeRow "RED" 0 7 9 none]
    queue_members := [{ channel_id := 4, member_id := 21, created_at := 0, is_priority := false }]
    display_channels := [{ queue_channel_id := 4, display_channel_id := 5, message_id := 6 }]
    black_white_list := [{ queue_channel_id := 4, role_member_id := 21, list_type := 0 }]
    schedules := [{ queue_channel_id := 4, schedule_command := 1 }]
    admin_permission := []
    priority := []
    voice_sessions := [] }

/-- Witness for C3 at `exampleDatabaseC3`: deleting queue 4 of guild 7
leaves no row of any table referencing channel 4. -/
theorem claim_C3_witness :
    (∀ q ∈ (QueueTable.unstore 7 (some 4) exampleDatabaseC3).queue_channels,
        q.queue_channel_id ≠ 4) ∧
    (∀ r ∈ (QueueTable.unstore 7 (some 4) exampleDatabaseC3).queue_members,
        r.channel_id ≠ 4) ∧
    (∀ r ∈ (QueueTable.unstore 7 (some 4) exampleDatabaseC3).display_channels,
        r.queue_channel_id ≠ 4) ∧
    (∀ r ∈ (QueueTable.unstore 7 (some 4) exampleDatabaseC3).black_white_list,
        r.queue_channel_id ≠ 4) ∧
    (∀ r ∈ (QueueTable.unstore 7 (some 4) exampleDatabaseC3).schedules,
        r.queue_channel_id ≠ 4) :=
  claim_C3_unstore_deletes_queue_and_dependents 7 4 exampleDatabaseC3
    ⟨QueueTable.storeRow "RED" 0 7 4 none, by simp [exampleDatabaseC3], rfl, rfl⟩
    (by decide)

/-! Claims C4 (bootstrap idempotence), C5 (default message mode) and
C6 (default pull count). -/

/-- C4: table bootstrap is idempotent.  `initTable` creates
`queue_channels` (and `queue_guilds`) only when the table does not exist;
on any state where the table exists it changes nothing - schema and rows
included - so a second run is always the identity on its table. -/
theorem claim_C4_initTable_idempotent (s : SchemaState) :
    (s.queueChannelsSchema.isSome → QueueTable.initTable s = s) ∧
    (s.queueGuildsSchema.isSome → QueueGuildTable.initTable s = s) ∧
    QueueTable.initTable (QueueTable.initTable s) = QueueTable.initTable s ∧
    QueueGuildTable.initTable (QueueGuildTable.initTable s) = QueueGuildTable.initTable s ∧
    (s.queueChannelsSchema = none →
      (QueueTable.initTable s).queueChannelsSchema = some queueChannelsColumns) ∧
    (s.queueGuildsSchema = none →
      (QueueGuildTable.initTable s).queueGuildsSchema = some queueGuildsColumns) := by
  rcases s with ⟨cs, gs, cr, gr⟩
  cases cs <;> cases gs <;>
    simp [QueueTable.initTable, QueueGuildTable.initTable]

/-- C5: a guild stored by `QueueGuildTable.store` starts with
`msg_mode = 1`, the EDIT display mode (mode 1: old display messages are
edited, the documented default), before any `setMessageMode` call. -/
theorem claim_C5_new_guild_starts_in_edit_mode (g : Nat) (db : Database)
    (hfresh : ∀ r ∈ db.queue_guilds, r.guild_id ≠ g) :
    ∃ row, QueueGuildTable.get g (QueueGuildTable.store g db) = some row ∧
      row.msg_mode = some MsgMode.edit.code := by
  refine ⟨QueueGuildTable.storeRow g, ?_, rfl⟩
  show (db.queue_guilds ++ [QueueGuildTable.storeRow g]).find?
      (fun r => r.guild_id == g) = some (QueueGuildTable.storeRow g)
  rw [List.find?_append]
  have h1 : db.queue_guilds.find? (fun r => r.guild_id == g) = none := by
    rw [List.find?_eq_none]
    intro r hr
    simp [hfresh r hr]
  rw [h1]
  simp [QueueGuildTable.storeRow]

/-- Witness for C5: storing guild 7 in the empty store yields a row in
EDIT mode. -/
theorem claim_C5_witness :
    ∃ row, QueueGuildTable.get 7 (QueueGuildTable.store 7 emptyDatabase) = some row ∧
      row.msg_mode = some MsgMode.edit.code :=
  claim_C5_new_guild_starts_in_edit_mode 7 emptyDatabase (by simp [emptyDatabase])

theorem memberStoreFold_queue_channels (ch : Nat) (occupants : List Nat) (db : Database) :
    (occupants.foldl (fun d m => QueueMemberTable.store ch m d) db).queue_channels =
      db.queue_channels := by
  induction occupants generalizing db with
  | nil => rfl
  | cons m ms ih =>
    rw [List.foldl_cons, ih]
    rfl

/-- C6: a queue created by `QueueTable.store` has `pull_num = 1`, and a
pull naming no explicit count on such a fresh nonempty queue, with no
destination size limit, pulls exactly one member (the head of the line). -/
theorem claim_C6_fresh_queue_default_pull_is_one (color : String) (grace g ch : Nat)
    (maxM : Option Nat) (isVoice : Bool) (occupants : List Nat) (db : Database)
    (queueMembers : List Nat)
    (hfresh : ∀ q ∈ db.queue_channels, q.queue_channel_id ≠ ch)
    (hne : queueMembers ≠ []) :
    ∃ row, QueueTable.get ch (QueueTable.store color grace g ch maxM isVoice occupants db) =
        some row ∧
      row.pull_num = some 1 ∧
      admissionPull row queueMembers none none = .pulled (queueMembers.take 1) ∧
      (queueMembers.take 1).length = 1 := by
  have hqc : (QueueTable.store color grace g ch maxM isVoice occupants db).queue_channels =
      db.queue_channels ++ [QueueTable.storeRow color grace g ch maxM] := by
    cases isVoice with
    | true =>
        show (occupants.foldl (fun d m => QueueMemberTable.store ch m d) _).queue_channels = _
        rw [memberStoreFold_queue_channels]
    | false => rfl
  have hpos : 0 < queueMembers.length := List.length_pos.mpr hne
  refine ⟨QueueTable.storeRow color grace g ch maxM, ?_, rfl, ?_, ?_⟩
  · show (QueueTable.store color grace g ch maxM isVoice occupants db).queue_channels.find?
        (fun q => q.queue_channel_id == ch) = some (QueueTable.storeRow color grace g ch maxM)
    rw [hqc, List.find?_append]
    have h1 : db.queue_channels.find? (fun q => q.queue_channel_id == ch) = none := by
      rw [List.find?_eq_none]
      intro q hq
      simp [hfresh q hq]
    rw [h1]
    simp [QueueTable.storeRow]
  · have h0 : (queueMembers.length == 0) = false := by
      rw [beq_eq_false_iff_ne]
      omega
    show admissionPull (QueueTable.storeRow color grace g ch maxM) queueMembers none none = _
    unfold admissionPull QueueTable.storeRow
    simp only [Option.getD_some, h0, Bool.false_eq_true, if_false]
    have h2 : ¬(queueMembers.length < 1) := by omega
    simp [h2, Nat.min_eq_left hpos]
  · rw [List.length_take]
    exact Nat.min_eq_left hpos

/-- Witness for C6: a fresh queue (channel 4 of guild 7) in the empty
store, with three queued members, pulls exactly member 21. -/
theorem claim_C6_witness :
    ∃ row, QueueTable.get 4
        (QueueTable.store "RED" 0 7 4 none false [] emptyDatabase) = some row ∧
      row.pull_num = some 1 ∧
      admissionPull row [21, 22, 23] none none = .pulled (([21, 22, 23] : List Nat).take 1) ∧
      (([21, 22, 23] : List Nat).take 1).length = 1 :=
  claim_C6_fresh_queue_default_pull_is_one "RED" 0 7 4 none false [] emptyDatabase
    [21, 22, 23] (by simp [emptyDatabase]) (by simp)

/-! Claims C7 (role independence of the core), C8 (non-fatal permission
and argument checks), C9 (verifyNumber), C10 (channel resolution). -/

/-- C7: the core never checks roles itself.  Two requests identical except
for the requesting member role data (role identifiers, role names,
administrator status) produce identical outcomes from every core
operation - all eight intents of section 6, `ArmVoiceTransfer` included;
authorization is supplied upstream by the command/permission collaborator
(`ParsingUtils.checkPermission`). -/
theorem claim_C7_core_outcome_role_independent (memberId : Nat)
    (roleIds1 roleIds2 : List Nat) (roleNames1 roleNames2 : List String)
    (isAdmin1 isAdmin2 : Bool) (intent : Intent) (db : Database) :
    coreHandle ⟨memberId, roleIds1, roleNames1, isAdmin1⟩ intent db =
      coreHandle ⟨memberId, roleIds2, roleNames2, isAdmin2⟩ intent db := by
  cases intent <;> rfl

/-- C8: permission checking and argument verification are never fatal.
`checkPermission` yields `false` for a missing member and whenever its
try-block raises (the catch swallows every error), and `verifyArgs`
returns the computed list of missing required argument names whatever the
outcome of its error reply - the reply result is discarded.  The last
conjunct equates the sequential embedding with the per-name reading
`missingArgNames`. -/
theorem claim_C8_checks_never_fatal :
    (∀ adminPerm entriesResult regexTest,
        ParsingUtils.checkPermission adminPerm entriesResult regexTest none = false) ∧
    (∀ adminPerm entriesResult regexTest member err,
        checkPermissionTry adminPerm entriesResult regexTest member = .error err →
        ParsingUtils.checkPermission adminPerm entriesResult regexTest member = false) ∧
    (∀ conf args replyResult,
        Parsed.verifyArgs conf args replyResult = Parsed.verifyArgs conf args (.ok ())) ∧
    (∀ conf args replyResult,
        (Parsed.verifyArgs conf args replyResult).2 = missingArgNames conf args) := by
  refine ⟨fun _ _ _ => rfl, ?_, fun _ _ _ => rfl, ?_⟩
  · intro adminPerm entriesResult regexTest member err h
    unfold ParsingUtils.checkPermission
    rw [h]
  · intro conf args replyResult
    rcases hnums : conf.numbers with _ | nc
    · cases h1 : (conf.channelRequired.isSome && args.channels.isNone) <;>
      cases h2 : (conf.rolesReq == some RequiredType.required && args.roles.isNone) <;>
      cases h3 : (conf.membersReq == some RequiredType.required &&
        (args.members.getD []).isEmpty) <;>
      cases h5 : (conf.stringsReq == some RequiredType.required && args.strings.isEmpty) <;>
      cases h6 : (conf.booleansReq == some RequiredType.required && args.booleans.isEmpty) <;>
      simp [Parsed.verifyArgs, missingArgNames, requiredArgMissing, List.filter,
        hnums, h1, h2, h3, h5, h6]
    · cases hN : (nc.required == some RequiredType.required) <;>
      cases hE : args.numbers.isEmpty <;>
      cases h1 : (conf.channelRequired.isSome && args.channels.isNone) <;>
      cases h2 : (conf.rolesReq == some RequiredType.required && args.roles.isNone) <;>
      cases h3 : (conf.membersReq == some RequiredType.required &&
        (args.members.getD []).isEmpty) <;>
      cases h5 : (conf.stringsReq == some RequiredType.required && args.strings.isEmpty) <;>
      cases h6 : (conf.booleansReq == some RequiredType.required && args.booleans.isEmpty) <;>
      simp [Parsed.verifyArgs, missingArgNames, requiredArgMissing, List.filter,
        hnums, hN, hE, h1, h2, h3, h5, h6]

theorem verifyNumber_eq_map (vmin vmax : Int) (d : Option Int) (l : List (Option Int)) :
    Parsed.verifyNumber vmin vmax d l =
      l.map (fun x =>
        match x with
        | some v => if v != 0 then some (max (min v vmax) vmin) else d
        | none => d) := by
  induction l with
  | nil => rfl
  | cons x rest ih =>
    cases x <;> simp [Parsed.verifyNumber, ih]

/-- C9: `verifyNumber(min, max, d)` replaces every nonzero non-null number
argument by its clamp `Math.max(Math.min(v, max), min)` into `[min, max]`,
and every argument that was `0`, `null` or `undefined` by the default `d` -
in particular a user-supplied `0` is overwritten by the default even when
`0` lies inside `[min, max]`. -/
theorem claim_C9_verifyNumber_clamps_and_defaults (vmin vmax : Int) (d : Option Int)
    (l : List (Option Int)) (h : vmin ≤ vmax) :
    (Parsed.verifyNumber vmin vmax d l).length = l.length ∧
    (∀ (i : Nat) (v : Int), l[i]? = some (some v) → v ≠ 0 →
        (Parsed.verifyNumber vmin vmax d l)[i]? = some (some (max (min v vmax) vmin)) ∧
        vmin ≤ max (min v vmax) vmin ∧ max (min v vmax) vmin ≤ vmax) ∧
    (∀ (i : Nat), (l[i]? = some (some 0) ∨ l[i]? = some none) →
        (Parsed.verifyNumber vmin vmax d l)[i]? = some d) := by
  refine ⟨by rw [verifyNumber_eq_map, List.length_map], ?_, ?_⟩
  · intro i v hv hv0
    rw [verifyNumber_eq_map, List.getElem?_map, hv]
    refine ⟨by simp [hv0], le_max_right _ _, max_le (min_le_right v vmax) h⟩
  · intro i hi
    rcases hi with hv | hv <;> rw [verifyNumber_eq_map, List.getElem?_map, hv] <;> simp

/-- Witness for C9 with bounds `[1, 10]`, default `5`, and the arguments
`[3, 0, null, 99]`: 3 stays, 0 and null become 5, 99 clamps to 10. -/
theorem claim_C9_witness :
    (Parsed.verifyNumber 1 10 (some 5) [some 3, some 0, none, some 99]).length =
        ([some 3, some 0, none, some 99] : List (Option Int)).length ∧
    (∀ (i : Nat) (v : Int),
        ([some 3, some 0, none, some 99] : List (Option Int))[i]? = some (some v) →
        v ≠ 0 →
        (Parsed.verifyNumber 1 10 (some 5) [some 3, some 0, none, some 99])[i]? =
          some (some (max (min v 10) 1)) ∧
        (1 : Int) ≤ max (min v 10) 1 ∧ max (min v 10) 1 ≤ 10) ∧
    (∀ (i : Nat),
        (([some 3, some 0, none, some 99] : List (Option Int))[i]? = some (some 0) ∨
        ([some 3, some 0, none, some 99] : List (Option Int))[i]? = some none) →
        (Parsed.verifyNumber 1 10 (some 5) [some 3, some 0, none, some 99])[i]? =
          some (some 5)) :=
  claim_C9_verifyNumber_clamps_and_defaults 1 10 (some 5) [some 3, some 0, none, some 99]
    (by decide)

/-- C10: automatic channel resolution in `parseArgs`.  When the
interaction carries no queuable channel argument: (a) a single stored
queue channel matching the type filter is selected with the string
arguments untouched; (b) otherwise a first string argument "ALL" selects
every match; (c) otherwise a first string argument equal to a match's
identifier selects that channel; and in cases (b) and (c) the consumed
first string is spliced off. -/
theorem claim_C10_channel_resolution (queuable : Nat → Bool) (channelArg : Option ChannelModel)
    (qcs : List ChannelModel) (tf : Option (List Nat)) (strings : List String)
    (hno : ∀ ch, channelArg = some ch → queuable ch.type = false) :
    ((matchingQueueChannels qcs tf).length = 1 →
      resolveQueueChannels queuable channelArg qcs tf strings =
        (some (matchingQueueChannels qcs tf), strings)) ∧
    ((matchingQueueChannels qcs tf).length ≠ 1 → strings.head? = some "ALL" →
      resolveQueueChannels queuable channelArg qcs tf strings =
        (some (matchingQueueChannels qcs tf), strings.drop 1)) ∧
    ((matchingQueueChannels qcs tf).length ≠ 1 → strings.head? ≠ some "ALL" →
      (∃ ch ∈ matchingQueueChannels qcs tf, strings.head? = some ch.id) →
      ∃ ch ∈ matchingQueueChannels qcs tf, strings.head? = some ch.id ∧
        resolveQueueChannels queuable channelArg qcs tf strings =
          (some [ch], strings.drop 1)) := by
  have hbase : resolveQueueChannels queuable channelArg qcs tf strings =
      resolveFromStored qcs tf strings := by
    cases channelArg with
    | none => rfl
    | some ch =>
        show (if queuable ch.type then (some [ch], strings)
          else resolveFromStored qcs tf strings) = _
        rw [hno ch rfl]
        simp
  rw [hbase]
  refine ⟨?_, ?_, ?_⟩
  · intro hlen
    unfold resolveFromStored
    simp [hlen]
  · intro hlen hALL
    unfold resolveFromStored
    have hlen' : ((matchingQueueChannels qcs tf).length == 1) = false := by
      simp [hlen]
    simp [hlen', hALL]
  · intro hlen hALL hex
    have hfind : ((matchingQueueChannels qcs tf).find?
        (fun ch => strings.head? == some ch.id)).isSome := by
      rw [List.find?_isSome]
      obtain ⟨ch, hmem, hid⟩ := hex
      exact ⟨ch, hmem, by simp [hid]⟩
    obtain ⟨ch0, hch0⟩ := Option.isSome_iff_exists.mp hfind
    have hid0 : strings.head? = some ch0.id := by
      have := List.find?_some hch0
      simpa using this
    refine ⟨ch0, List.mem_of_find?_eq_some hch0, hid0, ?_⟩
    unfold resolveFromStored
    have hlen' : ((matchingQueueChannels qcs tf).length == 1) = false := by
      simp [hlen]
    have hALL' : (strings.head? == some "ALL") = false := by
      simp only [beq_eq_false_iff_ne]
      exact hALL
    simp [hlen', hALL', hch0]

/-- Witness for C10: two stored queue channels (so no unique match), no
channel argument, first string "bbb" naming the second channel: that
channel is selected and "bbb" is consumed. -/
theorem claim_C10_witness :
    ((matchingQueueChannels [⟨"aaa", 0⟩, ⟨"bbb", 0⟩] none).length = 1 →
      resolveQueueChannels (fun t => t == 0) none [⟨"aaa", 0⟩, ⟨"bbb", 0⟩] none ["bbb", "x"] =
        (some (matchingQueueChannels [⟨"aaa", 0⟩, ⟨"bbb", 0⟩] none), ["bbb", "x"])) ∧
    ((matchingQueueChannels [⟨"aaa", 0⟩, ⟨"bbb", 0⟩] none).length ≠ 1 →
      (["bbb", "x"] : List String).head? = some "ALL" →
      resolveQueueChannels (fun t => t == 0) none [⟨"aaa", 0⟩, ⟨"bbb", 0⟩] none ["bbb", "x"] =
        (some (matchingQueueChannels [⟨"aaa", 0⟩, ⟨"bbb", 0⟩] none),
          (["bbb", "x"] : List String).drop 1)) ∧
    ((matchingQueueChannels [⟨"aaa", 0⟩, ⟨"bbb", 0⟩] none).length ≠ 1 →
      (["bbb", "x"] : List String).head? ≠ some "ALL" →
      (∃ ch ∈ matchingQueueChannels [⟨"aaa", 0⟩, ⟨"bbb", 0⟩] none,
          (["bbb", "x"] : List String).head? = some ch.id) →
      ∃ ch ∈ matchingQueueChannels [⟨"aaa", 0⟩, ⟨"bbb", 0⟩] none,
        (["bbb", "x"] : List String).head? = some ch.id ∧
        resolveQueueChannels (fun t => t == 0) none [⟨"aaa", 0⟩, ⟨"bbb", 0⟩] none
            ["bbb", "x"] = (some [ch], (["bbb", "x"] : List String).drop 1)) :=
  claim_C10_channel_resolution (fun t => t == 0) none [⟨"aaa", 0⟩, ⟨"bbb", 0⟩] none
    ["bbb", "x"] (fun _ h => nomatch h)
